import Mathlib

/-!
Verification of the cricket auction allocation engine.

This file gives a shallow embedding of the engine's core, translated from
the Python source: the budget validator (`app/managers/auction_manager.py`),
the purchase ledger (`app/managers/data_manager.py` together with the
`unique_player_purchase` constraint of `app/models/team.py`), and the
auction state machine (`app/services/auction_service.py`,
`app/services/team_service.py`).

Modelling conventions:
* Money (`Decimal` in the source) is embedded as `ℚ`: Python's `Decimal`
  arithmetic on the operations used here (addition, subtraction,
  multiplication, comparison) is exact, so `ℚ` is faithful.
* Python `int` counters are embedded as `ℤ`.
* A database table scoped to one season is a `List` of row structures; a
  `.first()` query is `List.find?`, and an ORM in-place mutation of the row
  returned by `.first()` is `update_first` (replace the first matching row).
* Each service operation returns `Except AuctionError SeasonState`.  An
  `.error` result models an `HTTPException` (or an integrity-constraint
  violation) raised before `db.commit()`: the enclosing transaction rolls
  back, so the persistent state is unchanged — the error constructor
  carries no state.
-/

namespace CricketAuction

/-- The `AuctionStatus` enum (`app/enums/auction_status.py`). -/
inductive AuctionStatus where
  | pending
  | sold
  | unsold
  | icon_player
  | owner
deriving DecidableEq, Repr

/-- The `AuctionMode` enum (`app/enums/auction_status.py`). -/
inductive AuctionMode where
  | random
  | manual
  | fast_assign
deriving DecidableEq, Repr

/-- The `TeamSeason` row (`app/models/team.py`), auction-relevant columns. -/
structure TeamSeason where
  team_id : Nat
  icon_player_id : Option Nat
  total_budget : ℚ
  remaining_budget : ℚ
  max_players : ℤ
  current_players : ℤ
  is_active : Bool
deriving DecidableEq, Repr

/-- The `PlayerSeason` row (`app/models/player.py`), auction-relevant columns. -/
structure PlayerSeason where
  player_id : Nat
  is_selected_for_auction : Bool
  auction_status : AuctionStatus
  auction_round : ℤ
deriving DecidableEq, Repr

/-- The `PlayerPurchase` row (`app/models/team.py`).  A `TeamSeason` row is
identified here by its `team_id`, which is unique within one season by the
`unique_team_season` constraint. -/
structure PlayerPurchase where
  team_season_id : Nat
  player_id : Nat
  purchase_price : ℚ
  is_icon_player : Bool
deriving DecidableEq, Repr

/-- One season's persistent auction state: the `Season` row's
auction-relevant columns (`app/models/tournament.py`) plus its season-scoped
`PlayerSeason`, `TeamSeason` and `PlayerPurchase` rows. -/
structure SeasonState where
  base_price : ℚ
  max_players_per_team : ℤ
  total_budget_per_team : ℚ
  auction_configured : Bool
  auction_started : Bool
  auction_mode : AuctionMode
  current_auction_round : ℤ
  players : List PlayerSeason
  teams : List TeamSeason
  purchases : List PlayerPurchase
deriving DecidableEq, Repr

/-- The structured content of the reason strings produced by
`AuctionManager.validate_team_budget`: each constructor corresponds to one
of the four distinct f-strings, carrying the values interpolated into it. -/
inductive RejectReason where
  | roster_full
  | insufficient_budget
  | reserve_shortfall (reserve : ℚ) (slots : ℤ)
  | cap_exceeded (max_bid : ℚ)
deriving DecidableEq, Repr

/-- The validation dict returned by `AuctionManager.validate_team_budget`. -/
structure BudgetValidation where
  can_bid : Bool
  max_bid_amount : ℚ
  reason : Option RejectReason
deriving DecidableEq, Repr

/-- Embeds `AuctionManager.validate_team_budget` (`app/managers/auction_manager.py`,
lines 37-84), translated clause for clause. -/
def validate_team_budget (team_season : TeamSeason) (bid_amount base_price : ℚ) :
    BudgetValidation :=
  if team_season.current_players ≥ team_season.max_players then
    ⟨false, 0, some .roster_full⟩
  else if bid_amount > team_season.remaining_budget then
    ⟨false, 0, some .insufficient_budget⟩
  else
    let remaining_players_needed : ℤ :=
      team_season.max_players - team_season.current_players - 1
    let min_budget_for_remaining : ℚ := (remaining_players_needed : ℚ) * base_price
    let max_bid_amount : ℚ := team_season.remaining_budget - min_budget_for_remaining
    if max_bid_amount < base_price then
      ⟨false, 0, some (.reserve_shortfall min_budget_for_remaining remaining_players_needed)⟩
    else if bid_amount > max_bid_amount then
      ⟨false, max_bid_amount, some (.cap_exceeded max_bid_amount)⟩
    else
      ⟨true, max_bid_amount, none⟩

/-- Embeds `AuctionManager.calculate_max_bid_for_player`
(`app/managers/auction_manager.py`, lines 16-34): fold over the season's
active teams, evaluating each team's own remaining budget as the candidate
amount and keeping the highest admissible `max_bid_amount`. -/
def calculate_max_bid_for_player (teams : List TeamSeason) (base_price : ℚ) : ℚ :=
  (teams.filter (fun t => t.is_active)).foldl
    (fun max_possible_bid team_season =>
      let validation := validate_team_budget team_season team_season.remaining_budget base_price
      if validation.can_bid && validation.max_bid_amount > max_possible_bid then
        validation.max_bid_amount
      else
        max_possible_bid)
    0

/-- Embeds `AuctionManager.calculate_player_role`
(`app/managers/auction_manager.py`, lines 87-103). -/
inductive PlayerRole where
  | wicketkeeper_batsman
  | wicketkeeper
  | allrounder
  | batsman
  | bowler
deriving DecidableEq, Repr

def calculate_player_role (is_wicketkeeper is_batsman is_bowler : Bool) : PlayerRole :=
  if is_wicketkeeper && is_batsman then .wicketkeeper_batsman
  else if is_wicketkeeper then .wicketkeeper
  else if is_batsman && is_bowler then .allrounder
  else if is_batsman then .batsman
  else if is_bowler then .bowler
  else .batsman

/-- The caller-visible errors of the engine: each constructor corresponds to
one distinct `HTTPException` detail string (or, for `duplicate_purchase`, the
integrity error of the `unique_player_purchase` constraint). -/
inductive AuctionError where
  | not_configured
  | already_started
  | no_teams_registered
  | not_started
  | player_not_found
  | team_not_found
  | bid_below_base_price (base_price : ℚ)
  | budget_rejected (reason : Option RejectReason)
  | no_unsold_players
  | duplicate_purchase
  | icon_after_start
  | icon_player_not_found
  | icon_already_assigned
deriving DecidableEq, Repr

/-- Replace the first element satisfying `q` by its image under `f`, leaving
everything else unchanged.  This is the effect of mutating, in place, the
ORM row returned by a `.first()` query. -/
def update_first (q : α → Bool) (f : α → α) : List α → List α
  | [] => []
  | x :: xs => if q x then f x :: xs else x :: update_first q f xs

/-- Embeds `DataManager.create_player_purchase` (`app/managers/data_manager.py`,
lines 16-34) together with the `unique_player_purchase` constraint on
`(team_season_id, player_id)` (`app/models/team.py`, line 60): inserting a
duplicate makes the enclosing transaction fail and roll back, writing
nothing; otherwise the team's budget/headcount mutation and the ledger
insert commit together. -/
def create_player_purchase (s : SeasonState) (team_id player_id : Nat)
    (purchase_price : ℚ) (is_icon : Bool) : Except AuctionError SeasonState :=
  if s.purchases.any (fun pu =>
      decide (pu.team_season_id = team_id ∧ pu.player_id = player_id)) then
    .error .duplicate_purchase
  else
    .ok { s with
      teams := update_first (fun t => decide (t.team_id = team_id))
        (fun t => { t with
          remaining_budget := t.remaining_budget - purchase_price,
          current_players := t.current_players + 1 }) s.teams,
      purchases := s.purchases ++ [⟨team_id, player_id, purchase_price, is_icon⟩] }

/-- The `PlayerBid` DTO (`app/dto/auction_dto.py`). -/
structure PlayerBid where
  player_id : Nat
  team_id : Nat
  bid_amount : ℚ
  is_sold : Bool
deriving DecidableEq, Repr

/-- The `FastAssignment` DTO (`app/dto/auction_dto.py`, lines 27-30).  Unlike
`PlayerBid`, it has no field validator constraining `price`. -/
structure FastAssignment where
  player_id : Nat
  team_id : Nat
  price : ℚ
deriving DecidableEq, Repr

/-- The `TeamWithIconPlayer` DTO (`app/dto/team_dto.py`). -/
structure TeamWithIconPlayer where
  team_id : Nat
  icon_player_id : Nat
deriving DecidableEq, Repr

/-- Embeds `AuctionService.start_auction` (`app/services/auction_service.py`,
lines 29-85). -/
def start_auction (s : SeasonState) (auction_mode : AuctionMode) :
    Except AuctionError SeasonState :=
  if ¬ s.auction_configured then .error .not_configured
  else if s.auction_started then .error .already_started
  else if (s.teams.filter (fun t => t.is_active)).length = 0 then
    .error .no_teams_registered
  else
    let icon_ids := s.teams.filterMap (fun t => t.icon_player_id)
    .ok { s with
      auction_started := true,
      auction_mode := auction_mode,
      current_auction_round := 1,
      players :=
        (s.players.map (fun p =>
          if icon_ids.contains p.player_id then
            { p with auction_status := AuctionStatus.icon_player }
          else p)).map (fun p =>
          if p.is_selected_for_auction ∧ p.auction_status = AuctionStatus.pending then
            { p with auction_status := AuctionStatus.pending, auction_round := 1 }
          else p) }

/-- Embeds `AuctionService.bid_on_player` (`app/services/auction_service.py`,
lines 170-225). -/
def bid_on_player (s : SeasonState) (bid_data : PlayerBid) :
    Except AuctionError SeasonState :=
  if ¬ s.auction_started then .error .not_started else
  match s.players.find? (fun p =>
      decide (p.player_id = bid_data.player_id ∧
        p.auction_status = AuctionStatus.pending)) with
  | none => .error .player_not_found
  | some _ =>
    if bid_data.is_sold then
      if bid_data.bid_amount < s.base_price then
        .error (.bid_below_base_price s.base_price)
      else
        match s.teams.find? (fun t => decide (t.team_id = bid_data.team_id)) with
        | none => .error .team_not_found
        | some team_season =>
          let validation := validate_team_budget team_season bid_data.bid_amount s.base_price
          if validation.can_bid then
            match create_player_purchase s bid_data.team_id bid_data.player_id
                bid_data.bid_amount false with
            | .error e => .error e
            | .ok s1 =>
              .ok { s1 with
                players := update_first (fun p =>
                    decide (p.player_id = bid_data.player_id ∧
                      p.auction_status = AuctionStatus.pending))
                  (fun p => { p with auction_status := AuctionStatus.sold }) s1.players }
          else .error (.budget_rejected validation.reason)
    else
      .ok { s with
        players := update_first (fun p =>
            decide (p.player_id = bid_data.player_id ∧
              p.auction_status = AuctionStatus.pending))
          (fun p => { p with auction_status := AuctionStatus.unsold }) s.players }

/-- One iteration of the loop body of `AuctionService.fast_assign_players`
(`app/services/auction_service.py`, lines 239-269): returns the updated
state and whether the tuple was applied. -/
def fast_assign_step (s : SeasonState) (assignment : FastAssignment) :
    Except AuctionError (SeasonState × Bool) :=
  match s.players.find? (fun p =>
      decide (p.player_id = assignment.player_id ∧
        (p.auction_status = AuctionStatus.pending ∨
         p.auction_status = AuctionStatus.unsold))) with
  | none => .ok (s, false)
  | some _ =>
    match s.teams.find? (fun t => decide (t.team_id = assignment.team_id)) with
    | none => .ok (s, false)
    | some team_season =>
      if (validate_team_budget team_season assignment.price s.base_price).can_bid then
        match create_player_purchase s assignment.team_id assignment.player_id
            assignment.price false with
        | .error e => .error e
        | .ok s1 =>
          .ok ({ s1 with
            players := update_first (fun p =>
                decide (p.player_id = assignment.player_id ∧
                  (p.auction_status = AuctionStatus.pending ∨
                   p.auction_status = AuctionStatus.unsold)))
              (fun p => { p with auction_status := AuctionStatus.sold }) s1.players },
            true)
      else .ok (s, false)

/-- The loop of `AuctionService.fast_assign_players`, threading the
continuously updated state and the `assigned_count` accumulator through the
batch in order. -/
def fast_assign_loop (s : SeasonState) (assigned_count : Nat) :
    List FastAssignment → Except AuctionError (SeasonState × Nat)
  | [] => .ok (s, assigned_count)
  | a :: rest =>
    match fast_assign_step s a with
    | .error e => .error e
    | .ok (s1, applied) =>
      fast_assign_loop s1 (if applied then assigned_count + 1 else assigned_count) rest

/-- Embeds `AuctionService.fast_assign_players` (`app/services/auction_service.py`,
lines 228-276): returns the final state and the count of tuples applied. -/
def fast_assign_players (s : SeasonState) (assignments : List FastAssignment) :
    Except AuctionError (SeasonState × Nat) :=
  if ¬ s.auction_started then .error .not_started
  else fast_assign_loop s 0 assignments

/-- Embeds `AuctionService.start_next_auction_round`
(`app/services/auction_service.py`, lines 278-310). -/
def start_next_auction_round (s : SeasonState) : Except AuctionError SeasonState :=
  if ¬ s.auction_started then .error .not_started else
  let next_round := s.current_auction_round + 1
  let updated_count :=
    s.players.countP (fun p => decide (p.auction_status = AuctionStatus.unsold))
  if updated_count = 0 then .error .no_unsold_players
  else
    .ok { s with
      players := s.players.map (fun p =>
        if p.auction_status = AuctionStatus.unsold then
          { p with auction_status := AuctionStatus.pending, auction_round := next_round }
        else p),
      current_auction_round := next_round }

/-- One iteration of the loop body of `TeamService.assign_icon_players`
(`app/services/team_service.py`, lines 164-209). -/
def assign_icon_step (s : SeasonState) (assignment : TeamWithIconPlayer) :
    Except AuctionError SeasonState :=
  match s.teams.find? (fun t => decide (t.team_id = assignment.team_id)) with
  | none => .error .team_not_found
  | some _ =>
    match s.players.find? (fun p =>
        decide (p.player_id = assignment.icon_player_id ∧
          p.is_selected_for_auction = true)) with
    | none => .error .icon_player_not_found
    | some _ =>
      if s.teams.any (fun t =>
          decide (t.icon_player_id = some assignment.icon_player_id)) then
        .error .icon_already_assigned
      else
        let s1 := { s with
          teams := update_first (fun t => decide (t.team_id = assignment.team_id))
            (fun t => { t with
              icon_player_id := some assignment.icon_player_id,
              current_players := 1 }) s.teams }
        create_player_purchase s1 assignment.team_id assignment.icon_player_id 0 true

/-- The loop of `TeamService.assign_icon_players`; any failing assignment
aborts the whole transaction. -/
def assign_icon_loop (s : SeasonState) :
    List TeamWithIconPlayer → Except AuctionError SeasonState
  | [] => .ok s
  | a :: rest =>
    match assign_icon_step s a with
    | .error e => .error e
    | .ok s1 => assign_icon_loop s1 rest

/-- Embeds `TeamService.assign_icon_players` (`app/services/team_service.py`,
lines 150-216). -/
def assign_icon_players (s : SeasonState) (assignments : List TeamWithIconPlayer) :
    Except AuctionError SeasonState :=
  if s.auction_started then .error .icon_after_start
  else assign_icon_loop s assignments

/-- The engine's mutating season-scoped operations, for stating reachability
and temporal properties. -/
inductive AuctionOp where
  | startOp (auction_mode : AuctionMode)
  | bidOp (bid_data : PlayerBid)
  | fastOp (assignments : List FastAssignment)
  | nextRoundOp
  | iconOp (assignments : List TeamWithIconPlayer)

/-- Apply one engine operation to the persistent season state, keeping only
the state component of the result. -/
def apply_op (s : SeasonState) : AuctionOp → Except AuctionError SeasonState
  | .startOp m => start_auction s m
  | .bidOp b => bid_on_player s b
  | .fastOp l => (fast_assign_players s l).map (fun r => r.1)
  | .nextRoundOp => start_next_auction_round s
  | .iconOp l => assign_icon_players s l

/-- Season states reachable by the engine: initially the auction has not
started and every `PlayerSeason` row has its column default status
`PENDING` (`app/models/player.py`, line 48); every further state is the
successful result of one engine operation. -/
inductive Reachable : SeasonState → Prop
  | init (s : SeasonState) (h0 : s.auction_started = false)
      (h1 : ∀ p ∈ s.players, p.auction_status = AuctionStatus.pending) :
      Reachable s
  | step (s s' : SeasonState) (op : AuctionOp) (hs : Reachable s)
      (h : apply_op s op = .ok s') : Reachable s'

/-! ## Sample and scenario states, and derived definitions -/

/-- The spec's scenario team: `max_players=5`, `current_players=2`,
`remaining_budget=1000`. -/
def sample_team : TeamSeason := ⟨1, none, 1000, 1000, 5, 2, true⟩

/-- A started season with `base_price=100`, the scenario team, and two
pending auction-selected players. -/
def sample_season : SeasonState :=
  { base_price := 100, max_players_per_team := 5, total_budget_per_team := 1000,
    auction_configured := true, auction_started := true, auction_mode := .random,
    current_auction_round := 1,
    players := [⟨1, true, .pending, 1⟩, ⟨2, true, .pending, 1⟩],
    teams := [sample_team], purchases := [] }

/-- Modelled from the spec sentence for comparison with the source's
`calculate_max_bid_for_player`: the display-only cross-team maximum is the
highest `max_bid_amount` among the season's active teams whose own
`remaining_budget` the validator admits as a hypothetical candidate, and `0`
when there is no such team. -/
def spec_cross_team_max_bid (teams : List TeamSeason) (base_price : ℚ) : ℚ :=
  ((teams.filter (fun t => t.is_active)).filterMap (fun t =>
    let v := validate_team_budget t t.remaining_budget base_price
    if v.can_bid then some v.max_bid_amount else none)).foldl max 0

/-- The state after `create_player_purchase sample_season 1 2 200 false`. -/
def sample_purchase_state : SeasonState :=
  { sample_season with
    teams := [⟨1, none, 1000, 800, 5, 3, true⟩],
    purchases := [⟨1, 2, 200, false⟩] }

/-- The state produced by fast-assigning player 1 to team 1 at price `-50`
from `sample_season`. -/
def negative_price_state : SeasonState :=
  { sample_season with
    players := [⟨1, true, .sold, 1⟩, ⟨2, true, .pending, 1⟩],
    teams := [⟨1, none, 1000, 1050, 5, 3, true⟩],
    purchases := [⟨1, 1, -50, false⟩] }

/-- A pre-start season used to exercise icon assignment: team 3 has a stale
`current_players = 4`, player 7 is selected for auction. -/
def icon_sample_state : SeasonState :=
  { base_price := 100, max_players_per_team := 5, total_budget_per_team := 1000,
    auction_configured := true, auction_started := false, auction_mode := .random,
    current_auction_round := 1,
    players := [⟨7, true, .pending, 1⟩],
    teams := [⟨3, none, 1000, 1000, 5, 4, true⟩],
    purchases := [] }

/-- Every row of `s` whose status is `SOLD` or `ICON_PLAYER` is present,
unchanged, at the same position in `s'`. -/
@[reducible] def players_frozen (s s' : SeasonState) : Prop :=
  ∀ (i : Nat) (p : PlayerSeason), s.players[i]? = some p →
    (p.auction_status = AuctionStatus.sold ∨
     p.auction_status = AuctionStatus.icon_player) →
    s'.players[i]? = some p

/-- A minimal registered season: one pending selected player, one active
team with a single roster slot. -/
def reach_state0 : SeasonState :=
  { base_price := 100, max_players_per_team := 1, total_budget_per_team := 1000,
    auction_configured := true, auction_started := false, auction_mode := .random,
    current_auction_round := 1,
    players := [⟨1, true, .pending, 1⟩],
    teams := [⟨1, none, 1000, 1000, 1, 0, true⟩],
    purchases := [] }

/-- State `reach_state0` after `start_auction`. -/
def reach_state1 : SeasonState := { reach_state0 with auction_started := true }

/-- State `reach_state1` after selling player 1 to team 1 for 100. -/
def reach_state2 : SeasonState :=
  { reach_state0 with
    auction_started := true,
    players := [⟨1, true, .sold, 1⟩],
    teams := [⟨1, none, 1000, 900, 1, 1, true⟩],
    purchases := [⟨1, 1, 100, false⟩] }

/-! ## Helper lemmas about the embedding's list primitives -/

theorem update_first_length (q : α → Bool) (f : α → α) (l : List α) :
    (update_first q f l).length = l.length := by
  induction l with
  | nil => rfl
  | cons x xs ih =>
    unfold update_first
    by_cases hq : q x = true <;> simp [hq, ih]

/-- Rows not matched by the query predicate keep their position and value
when the first matching row is mutated. -/
theorem getElem?_update_first_of_not (q : α → Bool) (f : α → α) (l : List α)
    (i : Nat) (x : α) (hx : l[i]? = some x) (hq : q x = false) :
    (update_first q f l)[i]? = some x := by
  induction l generalizing i with
  | nil => simp at hx
  | cons y ys ih =>
    unfold update_first
    by_cases hy : q y = true
    · rw [if_pos hy]
      cases i with
      | zero =>
        simp only [List.getElem?_cons_zero, Option.some.injEq] at hx
        subst hx
        rw [hy] at hq
        exact absurd hq (by simp)
      | succ j => simpa using (by simpa using hx)
    · rw [if_neg hy]
      cases i with
      | zero => simpa using hx
      | succ j =>
        simp only [List.getElem?_cons_succ] at hx ⊢
        exact ih j hx

/-- Mutating the first row matched by `q` turns a successful `find?` for `q`
into the mutated row, provided the mutation keeps the row matching `q`. -/
theorem find?_update_first_self (q : α → Bool) (f : α → α) (l : List α) (x : α)
    (hx : l.find? q = some x) (hf : q (f x) = true) :
    (update_first q f l).find? q = some (f x) := by
  induction l with
  | nil => simp at hx
  | cons y ys ih =>
    unfold update_first
    by_cases hy : q y = true
    · rw [if_pos hy]
      rw [List.find?_cons_of_pos _ hy, Option.some.injEq] at hx
      subst hx
      exact List.find?_cons_of_pos _ hf
    · rw [if_neg hy]
      rw [List.find?_cons_of_neg _ hy] at hx
      rw [List.find?_cons_of_neg _ hy]
      exact ih hx

/-- A successful budget validation passes the first two guards: the roster
has room and the candidate amount is within the remaining budget. -/
theorem can_bid_roster_and_budget (t : TeamSeason) (amt base : ℚ)
    (h : (validate_team_budget t amt base).can_bid = true) :
    t.current_players < t.max_players ∧ amt ≤ t.remaining_budget := by
  unfold validate_team_budget at h
  by_cases h1 : t.current_players ≥ t.max_players
  · rw [if_pos h1] at h
    exact absurd h (by simp)
  · rw [if_neg h1] at h
    by_cases h2 : amt > t.remaining_budget
    · rw [if_pos h2] at h
      exact absurd h (by simp)
    · exact ⟨lt_of_not_le h1, le_of_not_lt h2⟩

/-! ## C1: the budget validator's cap computation -/

/-- C1: for a team with roster room (`current_players < max_players`) and a
candidate within the remaining budget, the validator computes
`max_bid = remaining_budget - (max_players - current_players - 1) * base_price`,
admits the candidate iff `base_price ≤ max_bid` and
`candidate ≤ max_bid`, and reports that `max_bid` whenever
`base_price ≤ max_bid` (in particular on a cap rejection). -/
theorem validate_team_budget_cap_spec (t : TeamSeason) (amt base : ℚ)
    (h1 : t.current_players < t.max_players)
    (h2 : amt ≤ t.remaining_budget) :
    ((validate_team_budget t amt base).can_bid = true ↔
      base ≤ t.remaining_budget - ((t.max_players - t.current_players - 1 : ℤ) : ℚ) * base ∧
      amt ≤ t.remaining_budget - ((t.max_players - t.current_players - 1 : ℤ) : ℚ) * base) ∧
    (base ≤ t.remaining_budget - ((t.max_players - t.current_players - 1 : ℤ) : ℚ) * base →
      (validate_team_budget t amt base).max_bid_amount =
        t.remaining_budget - ((t.max_players - t.current_players - 1 : ℤ) : ℚ) * base) := by
  unfold validate_team_budget
  rw [if_neg (not_le.mpr h1), if_neg (not_lt.mpr h2)]
  dsimp only
  set M := t.remaining_budget - ((t.max_players - t.current_players - 1 : ℤ) : ℚ) * base
    with hM
  constructor
  · constructor
    · intro hcb
      by_cases h3 : M < base
      · rw [if_pos h3] at hcb
        exact absurd hcb (by simp)
      · rw [if_neg h3] at hcb
        by_cases h4 : amt > M
        · rw [if_pos h4] at hcb
          exact absurd hcb (by simp)
        · exact ⟨le_of_not_lt h3, le_of_not_lt h4⟩
    · rintro ⟨hb, ha⟩
      rw [if_neg (not_lt.mpr hb), if_neg (not_lt.mpr ha)]
  · intro hb
    rw [if_neg (not_lt.mpr hb)]
    by_cases h4 : amt > M
    · rw [if_pos h4]
    · rw [if_neg h4]

/-- C1 witness: the spec's scenario — candidate 800 is admitted, candidate
801 is rejected yet the validator still reports `max_bid_amount = 800`. -/
theorem validate_team_budget_cap_spec_witness :
    (validate_team_budget sample_team 800 100).can_bid = true ∧
    (validate_team_budget sample_team 801 100).can_bid = false ∧
    (validate_team_budget sample_team 801 100).max_bid_amount = 800 := by
  have h800 := validate_team_budget_cap_spec sample_team 800 100
    (by norm_num [sample_team]) (by norm_num [sample_team])
  have h801 := validate_team_budget_cap_spec sample_team 801 100
    (by norm_num [sample_team]) (by norm_num [sample_team])
  refine ⟨h800.1.mpr ⟨by norm_num [sample_team], by norm_num [sample_team]⟩, ?_, ?_⟩
  · rw [Bool.eq_false_iff]
    intro hcb
    have := h801.1.mp hcb
    norm_num [sample_team] at this
  · rw [h801.2 (by norm_num [sample_team])]
    norm_num [sample_team]

/-! ## C3: the purchase ledger's duplicate protection -/

/-- C3: recording a purchase fails with the duplicate error and writes
nothing when an entry for the same `(team_season, player)` pair exists;
otherwise it appends exactly one new entry, preserving every existing
entry (never overwriting). -/
theorem create_player_purchase_duplicate_spec (s : SeasonState)
    (team_id player_id : Nat) (price : ℚ) (ic : Bool) :
    (s.purchases.any (fun pu =>
        decide (pu.team_season_id = team_id ∧ pu.player_id = player_id)) = true →
      create_player_purchase s team_id player_id price ic = .error .duplicate_purchase) ∧
    (s.purchases.any (fun pu =>
        decide (pu.team_season_id = team_id ∧ pu.player_id = player_id)) = false →
      create_player_purchase s team_id player_id price ic = .ok { s with
        teams := update_first (fun t => decide (t.team_id = team_id))
          (fun t => { t with
            remaining_budget := t.remaining_budget - price,
            current_players := t.current_players + 1 }) s.teams,
        purchases := s.purchases ++ [⟨team_id, player_id, price, ic⟩] }) := by
  constructor <;> intro h
  · unfold create_player_purchase
    rw [if_pos h]
  · unfold create_player_purchase
    rw [if_neg (by rw [h]; simp)]

/-- C3 witness: with a ledger already holding `(team 1, player 1)`, the same
pair is rejected as a duplicate; with an empty ledger the entry is written. -/
theorem create_player_purchase_duplicate_spec_witness :
    create_player_purchase { sample_season with purchases := [⟨1, 1, 100, false⟩] }
      1 1 200 false = .error .duplicate_purchase ∧
    create_player_purchase sample_season 1 2 200 false = .ok { sample_season with
      teams := update_first (fun t => decide (t.team_id = 1))
        (fun t => { t with
          remaining_budget := t.remaining_budget - 200,
          current_players := t.current_players + 1 }) sample_season.teams,
      purchases := sample_season.purchases ++ [⟨1, 2, 200, false⟩] } := by
  constructor
  · exact (create_player_purchase_duplicate_spec _ 1 1 200 false).1 (by
      simp [sample_season])
  · exact (create_player_purchase_duplicate_spec sample_season 1 2 200 false).2 (by
      simp [sample_season])

/-! ## C5: round advance moves all unsold players or fails without mutation -/

/-- C5: with the auction started, `start_next_auction_round` either fails
with the no-unsold error when no `UNSOLD` row exists (an `.error` result
commits nothing, so `current_auction_round` and every `PlayerSeason` row are
unchanged), or succeeds, moving every `UNSOLD` row (from any round) to
`PENDING` stamped `current_auction_round + 1`, leaving all other rows
unchanged, and incrementing `current_auction_round` to match. -/
theorem start_next_round_spec (s : SeasonState) (hs : s.auction_started = true) :
    ((∀ p ∈ s.players, p.auction_status ≠ AuctionStatus.unsold) →
      start_next_auction_round s = .error .no_unsold_players) ∧
    ((∃ p ∈ s.players, p.auction_status = AuctionStatus.unsold) →
      start_next_auction_round s = .ok { s with
        players := s.players.map (fun p =>
          if p.auction_status = AuctionStatus.unsold then
            { p with auction_status := AuctionStatus.pending,
                     auction_round := s.current_auction_round + 1 }
          else p),
        current_auction_round := s.current_auction_round + 1 }) := by
  unfold start_next_auction_round
  rw [if_neg (by rw [hs]; simp)]
  dsimp only
  constructor
  · intro h
    rw [if_pos (List.countP_eq_zero.mpr (by simpa using h))]
  · intro h
    rw [if_neg (Nat.pos_iff_ne_zero.mp (List.countP_pos_iff.mpr (by simpa using h)))]

/-- C5 witness: a season with one unsold and one sold player advances to
round 2 restamping only the unsold row; a season whose players are all sold
fails with the no-unsold error. -/
theorem start_next_round_spec_witness :
    start_next_auction_round { sample_season with
        players := [⟨1, true, .unsold, 1⟩, ⟨2, true, .sold, 1⟩] } =
      .ok { { sample_season with
          players := [⟨1, true, .unsold, 1⟩, ⟨2, true, .sold, 1⟩] } with
        players := [⟨1, true, .unsold, 1⟩, ⟨2, true, .sold, 1⟩].map (fun p =>
          if p.auction_status = AuctionStatus.unsold then
            { p with auction_status := AuctionStatus.pending,
                     auction_round := sample_season.current_auction_round + 1 }
          else p),
        current_auction_round := sample_season.current_auction_round + 1 } ∧
    start_next_auction_round { sample_season with
        players := [⟨1, true, .sold, 1⟩] } = .error .no_unsold_players := by
  constructor
  · exact (start_next_round_spec _ rfl).2 ⟨⟨1, true, .unsold, 1⟩, by simp, rfl⟩
  · exact (start_next_round_spec _ rfl).1 (by simp)

/-! ## C6: the display-only cross-team maximum bid -/

theorem max_bid_foldl_filterMap (base : ℚ) (l : List TeamSeason) : ∀ acc : ℚ,
    l.foldl (fun max_possible_bid team_season =>
      let validation := validate_team_budget team_season team_season.remaining_budget base
      if validation.can_bid && validation.max_bid_amount > max_possible_bid then
        validation.max_bid_amount
      else max_possible_bid) acc =
    (l.filterMap (fun t =>
      let v := validate_team_budget t t.remaining_budget base
      if v.can_bid then some v.max_bid_amount else none)).foldl max acc := by
  induction l with
  | nil => intro acc; rfl
  | cons t l ih =>
    intro acc
    rw [List.foldl_cons, List.filterMap_cons]
    dsimp only
    cases hcb : (validate_team_budget t t.remaining_budget base).can_bid
    · simp only [Bool.false_and, Bool.false_eq_true, reduceIte]
      exact ih acc
    · simp only [Bool.true_and, reduceIte]
      rw [List.foldl_cons, ih]
      congr 1
      rcases le_or_lt (validate_team_budget t t.remaining_budget base).max_bid_amount acc with h | h
      · rw [if_neg (by simp only [decide_eq_true_eq]; exact not_lt.mpr h), max_eq_left h]
      · rw [if_pos (by simp only [decide_eq_true_eq]; exact h), max_eq_right (le_of_lt h)]

theorem foldl_max_is_upper_bound (l : List ℚ) : ∀ a : ℚ,
    a ≤ l.foldl max a ∧ ∀ x ∈ l, x ≤ l.foldl max a := by
  induction l with
  | nil => intro a; simp
  | cons y ys ih =>
    intro a
    rw [List.foldl_cons]
    refine ⟨le_trans (le_max_left a y) (ih (max a y)).1, ?_⟩
    intro x hx
    rcases List.mem_cons.mp hx with rfl | hx
    · exact le_trans (le_max_right a x) (ih (max a x)).1
    · exact (ih (max a y)).2 x hx

/-- C6: the source's cross-team maximum equals the spec's description — the
largest admissible `max_bid_amount` where each active team's own remaining
budget is the hypothetical candidate; every admissible team's value is
dominated, inadmissible teams contribute nothing, and the result is `0`
when no team is admissible. -/
theorem calculate_max_bid_matches_spec (teams : List TeamSeason) (base : ℚ) :
    calculate_max_bid_for_player teams base = spec_cross_team_max_bid teams base ∧
    (∀ t ∈ teams.filter (fun t => t.is_active),
      (validate_team_budget t t.remaining_budget base).can_bid = true →
      (validate_team_budget t t.remaining_budget base).max_bid_amount ≤
        calculate_max_bid_for_player teams base) ∧
    ((∀ t ∈ teams.filter (fun t => t.is_active),
        (validate_team_budget t t.remaining_budget base).can_bid = false) →
      calculate_max_bid_for_player teams base = 0) := by
  have heq : calculate_max_bid_for_player teams base = spec_cross_team_max_bid teams base :=
    max_bid_foldl_filterMap base (teams.filter (fun t => t.is_active)) 0
  refine ⟨heq, ?_, ?_⟩
  · intro t ht hcb
    rw [heq]
    refine (foldl_max_is_upper_bound _ 0).2 _ ?_
    refine List.mem_filterMap.mpr ⟨t, ht, ?_⟩
    dsimp only
    rw [if_pos hcb]
  · intro h
    rw [heq]
    unfold spec_cross_team_max_bid
    rw [List.filterMap_eq_nil_iff.mpr ?_]
    · rfl
    · intro t ht
      dsimp only
      rw [if_neg (by rw [h t ht]; simp)]

/-- C6 witness: for a two-team season where only the second team (one open
slot) can absorb its whole remaining budget, the computed display maximum
is that team's `max_bid_amount`. -/
theorem calculate_max_bid_matches_spec_witness :
    calculate_max_bid_for_player [sample_team, ⟨2, none, 1000, 700, 5, 4, true⟩] 100 =
      spec_cross_team_max_bid [sample_team, ⟨2, none, 1000, 700, 5, 4, true⟩] 100 ∧
    calculate_max_bid_for_player [sample_team, ⟨2, none, 1000, 700, 5, 4, true⟩] 100 = 700 := by
  refine ⟨(calculate_max_bid_matches_spec _ 100).1, ?_⟩
  norm_num [calculate_max_bid_for_player, validate_team_budget, sample_team]

/-! ## C7: the hard floor check in bid resolution -/

/-- C7: on a sold-resolution of a pending player, an amount strictly below
`base_price` is rejected by the hard floor check — for every team
configuration, so before the team lookup and before the validator run —
with its own error constructor, distinct from every validator rejection;
the `.error` result carries no state, so nothing is written and the player
stays `PENDING`. -/
theorem bid_floor_check_spec (s : SeasonState) (bid_data : PlayerBid) (ps : PlayerSeason)
    (hs : s.auction_started = true)
    (hsold : bid_data.is_sold = true)
    (hfind : s.players.find? (fun p =>
      decide (p.player_id = bid_data.player_id ∧
        p.auction_status = AuctionStatus.pending)) = some ps)
    (hlow : bid_data.bid_amount < s.base_price) :
    bid_on_player s bid_data = .error (.bid_below_base_price s.base_price) ∧
    (∀ reason, AuctionError.bid_below_base_price s.base_price ≠
      AuctionError.budget_rejected reason) ∧
    (∀ s', bid_on_player s bid_data ≠ .ok s') := by
  have hmain : bid_on_player s bid_data = .error (.bid_below_base_price s.base_price) := by
    unfold bid_on_player
    rw [if_neg (by rw [hs]; simp), hfind, if_pos hsold, if_pos hlow]
  refine ⟨hmain, ?_, ?_⟩
  · intro reason hcon
    exact AuctionError.noConfusion hcon
  · intro s' hok
    rw [hmain] at hok
    exact Except.noConfusion hok

/-- C7 witness: the spec's scenario — candidate 50 against `base_price=100`
is rejected by the floor check at the `resolve_bid` level. -/
theorem bid_floor_check_spec_witness :
    bid_on_player sample_season ⟨1, 1, 50, true⟩ =
      .error (.bid_below_base_price sample_season.base_price) := by
  exact (bid_floor_check_spec sample_season ⟨1, 1, 50, true⟩ ⟨1, true, .pending, 1⟩
    rfl rfl (by simp [sample_season]) (by norm_num [sample_season])).1

/-! ## C9: fast-assign has no floor on the price -/

/-- C9: a fast-assign tuple priced at 50, strictly below `base_price = 100`,
is applied — the validator caps but does not floor the candidate amount and
`fast_assign_players` adds no floor check of its own — and a purchase below
base price is recorded, while `bid_on_player` rejects the same amount with
the hard floor error. -/
theorem fast_assign_no_floor_check :
    (50 : ℚ) < sample_season.base_price ∧
    fast_assign_players sample_season [⟨1, 1, 50⟩] =
      .ok ({ sample_season with
        players := [⟨1, true, .sold, 1⟩, ⟨2, true, .pending, 1⟩],
        teams := [⟨1, none, 1000, 950, 5, 3, true⟩],
        purchases := [⟨1, 1, 50, false⟩] }, 1) ∧
    bid_on_player sample_season ⟨1, 1, 50, true⟩ =
      .error (.bid_below_base_price sample_season.base_price) := by
  refine ⟨by norm_num [sample_season], ?_, ?_⟩
  · norm_num [fast_assign_players, fast_assign_loop, fast_assign_step,
      create_player_purchase, update_first, validate_team_budget,
      sample_season, sample_team]
  · norm_num [bid_on_player, sample_season, sample_team]

/-! ## C2: ledger write deltas and the budget/roster invariants -/

/-- C2 (amended) : every ledger write mutates the purchasing team by exactly
`remaining_budget -= price` and `current_players += 1` and appends exactly
one ledger entry; and a validator-gated purchase preserves
`0 ≤ remaining_budget ≤ total_budget` and
`0 ≤ current_players ≤ max_players` provided the price is nonnegative —
which `resolve_bid` guarantees via its floor check but fast-assign does
not. -/
theorem purchase_write_deltas_and_invariants
    (s s' : SeasonState) (team_id player_id : Nat) (price : ℚ) (ic : Bool)
    (t : TeamSeason)
    (hok : create_player_purchase s team_id player_id price ic = .ok s')
    (ht : s.teams.find? (fun u => decide (u.team_id = team_id)) = some t) :
    s'.teams.find? (fun u => decide (u.team_id = team_id)) =
      some { t with remaining_budget := t.remaining_budget - price,
                    current_players := t.current_players + 1 } ∧
    s'.purchases = s.purchases ++ [⟨team_id, player_id, price, ic⟩] ∧
    ((validate_team_budget t price s.base_price).can_bid = true → 0 ≤ price →
      0 ≤ t.remaining_budget → t.remaining_budget ≤ t.total_budget →
      0 ≤ t.current_players → t.current_players ≤ t.max_players →
      (0 ≤ t.remaining_budget - price ∧ t.remaining_budget - price ≤ t.total_budget ∧
       0 ≤ t.current_players + 1 ∧ t.current_players + 1 ≤ t.max_players)) := by
  unfold create_player_purchase at hok
  split at hok
  · exact absurd hok (by simp)
  · simp only [Except.ok.injEq] at hok
    subst hok
    refine ⟨?_, rfl, ?_⟩
    · have hqt := @List.find?_some TeamSeason
        (fun u => decide (u.team_id = team_id)) t s.teams ht
      exact find?_update_first_self _ _ _ t ht hqt
    · intro hcb hp h1 h2 h3 h4
      obtain ⟨hlt, hle⟩ := can_bid_roster_and_budget t price s.base_price hcb
      refine ⟨by linarith, by linarith, by linarith, by linarith⟩

/-- C2 witness: recording player 2 for team 1 at price 200 debits the team
from 1000 to 800, raises the headcount from 2 to 3, appends one entry, and
keeps all four invariants. -/
theorem purchase_write_deltas_and_invariants_witness :
    sample_purchase_state.teams.find? (fun u => decide (u.team_id = 1)) =
      some { sample_team with
        remaining_budget := sample_team.remaining_budget - 200,
        current_players := sample_team.current_players + 1 } ∧
    sample_purchase_state.purchases = sample_season.purchases ++ [⟨1, 2, 200, false⟩] ∧
    ((validate_team_budget sample_team 200 sample_season.base_price).can_bid = true →
      (0 : ℚ) ≤ 200 →
      0 ≤ sample_team.remaining_budget →
      sample_team.remaining_budget ≤ sample_team.total_budget →
      0 ≤ sample_team.current_players →
      sample_team.current_players ≤ sample_team.max_players →
      (0 ≤ sample_team.remaining_budget - 200 ∧
       sample_team.remaining_budget - 200 ≤ sample_team.total_budget ∧
       0 ≤ sample_team.current_players + 1 ∧
       sample_team.current_players + 1 ≤ sample_team.max_players)) := by
  exact purchase_write_deltas_and_invariants sample_season sample_purchase_state
    1 2 200 false sample_team
    (by norm_num [create_player_purchase, update_first, sample_season, sample_team,
      sample_purchase_state])
    (by simp [sample_season, sample_team])

/-- C2 counterexample: starting from a team satisfying every invariant
(`remaining_budget = total_budget = 1000`), the engine records a
validator-gated fast-assign purchase at price `-50` (the `FastAssignment`
DTO has no nonnegativity validator), after which
`remaining_budget = 1050 > 1000 = total_budget` — so the claimed invariant
`remaining_budget ≤ total_budget` fails after this engine-recorded,
validator-gated purchase. -/
theorem fast_assign_negative_price_breaks_budget_invariant :
    (validate_team_budget sample_team (-50) sample_season.base_price).can_bid = true ∧
    fast_assign_players sample_season [⟨1, 1, -50⟩] = .ok (negative_price_state, 1) ∧
    negative_price_state.purchases = [⟨1, 1, -50, false⟩] ∧
    negative_price_state.teams.find? (fun u => decide (u.team_id = 1)) =
      some ⟨1, none, 1000, 1050, 5, 3, true⟩ ∧
    ¬ ((⟨1, none, 1000, 1050, 5, 3, true⟩ : TeamSeason).remaining_budget ≤
       (⟨1, none, 1000, 1050, 5, 3, true⟩ : TeamSeason).total_budget) := by
  refine ⟨?_, ?_, rfl, ?_, by norm_num⟩
  · norm_num [validate_team_budget, sample_team, sample_season]
  · norm_num [fast_assign_players, fast_assign_loop, fast_assign_step,
      create_player_purchase, update_first, validate_team_budget,
      sample_season, sample_team, negative_price_state]
  · simp [negative_price_state, sample_season]

/-! ## C4: the fast-assign batch contract -/

/-- C4: the batch runs the loop from count 0 over the tuples in order; an
empty tail returns the accumulated count; a tuple is skipped — state and
count untouched, batch not failed — exactly when the player is not in
{PENDING, UNSOLD}, the team is not in the season, or the validator rejects
the price against the team's current (already batch-mutated) state;
otherwise the tuple immediately debits the team, appends the ledger entry
and sets the player SOLD before the rest of the batch runs with count + 1. -/
theorem fast_assign_batch_spec (s : SeasonState) (n : Nat) (a : FastAssignment)
    (rest : List FastAssignment)
    (hs : s.auction_started = true)
    (hdup : s.purchases.any (fun pu =>
      decide (pu.team_season_id = a.team_id ∧ pu.player_id = a.player_id)) = false) :
    fast_assign_players s (a :: rest) = fast_assign_loop s 0 (a :: rest) ∧
    fast_assign_loop s n [] = .ok (s, n) ∧
    fast_assign_loop s n (a :: rest) =
      (if (s.players.find? (fun p =>
            decide (p.player_id = a.player_id ∧
              (p.auction_status = AuctionStatus.pending ∨
               p.auction_status = AuctionStatus.unsold))) = none) ∨
          (s.teams.find? (fun t => decide (t.team_id = a.team_id)) = none) ∨
          ((s.teams.find? (fun t => decide (t.team_id = a.team_id))).map
            (fun ts => (validate_team_budget ts a.price s.base_price).can_bid) =
              some false) then
        fast_assign_loop s n rest
      else
        fast_assign_loop { s with
          teams := update_first (fun t => decide (t.team_id = a.team_id))
            (fun t => { t with
              remaining_budget := t.remaining_budget - a.price,
              current_players := t.current_players + 1 }) s.teams,
          purchases := s.purchases ++ [⟨a.team_id, a.player_id, a.price, false⟩],
          players := update_first (fun p =>
            decide (p.player_id = a.player_id ∧
              (p.auction_status = AuctionStatus.pending ∨
               p.auction_status = AuctionStatus.unsold)))
            (fun p => { p with auction_status := AuctionStatus.sold }) s.players }
          (n + 1) rest) := by
  have hloopF : ∀ s1 : SeasonState, fast_assign_step s a = .ok (s1, false) →
      fast_assign_loop s n (a :: rest) = fast_assign_loop s1 n rest := by
    intro s1 hstep
    simp only [fast_assign_loop, hstep]
    rw [if_neg (by simp)]
  have hloopT : ∀ s1 : SeasonState, fast_assign_step s a = .ok (s1, true) →
      fast_assign_loop s n (a :: rest) = fast_assign_loop s1 (n + 1) rest := by
    intro s1 hstep
    simp only [fast_assign_loop, hstep]
    rw [if_pos trivial]
  refine ⟨?_, rfl, ?_⟩
  · unfold fast_assign_players
    rw [if_neg (by rw [hs]; simp)]
  · rcases hfp : s.players.find? (fun p =>
        decide (p.player_id = a.player_id ∧
          (p.auction_status = AuctionStatus.pending ∨
           p.auction_status = AuctionStatus.unsold))) with _ | p
    · rw [if_pos (Or.inl hfp), hloopF s (by unfold fast_assign_step; rw [hfp])]
    · rcases hft : s.teams.find? (fun t => decide (t.team_id = a.team_id)) with _ | ts
      · rw [if_pos (Or.inr (Or.inl hft)),
          hloopF s (by unfold fast_assign_step; rw [hfp, hft])]
      · cases hcb : (validate_team_budget ts a.price s.base_price).can_bid
        · rw [if_pos (Or.inr (Or.inr (by rw [hft]; simp [hcb]))),
            hloopF s (by
              unfold fast_assign_step
              rw [hfp, hft]
              dsimp only
              rw [if_neg (by rw [hcb]; simp)])]
        · rw [if_neg (by
              push_neg
              refine ⟨?_, ?_, ?_⟩
              · intro h
                rw [h] at hfp
                exact Option.noConfusion hfp
              · intro h
                rw [h] at hft
                exact Option.noConfusion hft
              · intro h
                rw [hft] at h
                simp [hcb] at h),
            hloopT _ (by
              unfold fast_assign_step
              rw [hfp, hft]
              dsimp only
              rw [if_pos hcb]
              unfold create_player_purchase
              rw [if_neg (by rw [hdup]; simp)])]

/-- C4 witness: the spec's batch scenario — `[(p1,t1,100),(p2,t1,950)]`
against the scenario team applies the first tuple (budget 1000 → 900), then
evaluates the second against the updated state, where 950 exceeds the new
cap 800, so it is skipped and the batch reports one applied tuple. -/
theorem fast_assign_batch_spec_witness :
    fast_assign_players sample_season [⟨1, 1, 100⟩, ⟨2, 1, 950⟩] =
      .ok ({ sample_season with
        players := [⟨1, true, .sold, 1⟩, ⟨2, true, .pending, 1⟩],
        teams := [⟨1, none, 1000, 900, 5, 3, true⟩],
        purchases := [⟨1, 1, 100, false⟩] }, 1) := by
  have h1 := fast_assign_batch_spec sample_season 0 ⟨1, 1, 100⟩ [⟨2, 1, 950⟩]
    rfl (by simp [sample_season])
  rw [h1.1, h1.2.2]
  norm_num [fast_assign_loop, fast_assign_step, create_player_purchase,
    update_first, validate_team_budget, sample_season, sample_team]
  exact ⟨fun h => Option.noConfusion h, fun h => Option.noConfusion h⟩

/-! ## C10: icon assignment pins current_players to 2 -/

/-- C10: a successful single icon assignment leaves the assigned team with
`current_players` exactly 2 — the operation overwrites the counter with 1
and the ledger write increments it — regardless of the team's prior
counter, and with `remaining_budget` unchanged since the icon purchase
price is 0. -/
theorem icon_assignment_headcount (s s' : SeasonState) (a : TeamWithIconPlayer)
    (t : TeamSeason)
    (hok : assign_icon_players s [a] = .ok s')
    (ht : s.teams.find? (fun u => decide (u.team_id = a.team_id)) = some t) :
    s'.teams.find? (fun u => decide (u.team_id = a.team_id)) =
      some { t with icon_player_id := some a.icon_player_id,
                    remaining_budget := t.remaining_budget,
                    current_players := 2 } := by
  unfold assign_icon_players at hok
  split at hok
  · exact absurd hok (by simp)
  · rcases hst : assign_icon_step s a with e | s1
    · simp only [assign_icon_loop, hst] at hok
      exact Except.noConfusion hok
    · simp only [assign_icon_loop, hst, Except.ok.injEq] at hok
      subst hok
      unfold assign_icon_step at hst
      rw [ht] at hst
      rcases hfp : s.players.find? (fun p =>
          decide (p.player_id = a.icon_player_id ∧
            p.is_selected_for_auction = true)) with _ | p
      · rw [hfp] at hst
        exact absurd hst (by simp)
      · rw [hfp] at hst
        dsimp only at hst
        by_cases hdup : s.teams.any (fun u =>
            decide (u.icon_player_id = some a.icon_player_id)) = true
        · rw [if_pos hdup] at hst
          exact absurd hst (by simp)
        · rw [if_neg hdup] at hst
          unfold create_player_purchase at hst
          split at hst
          · exact absurd hst (by simp)
          · rw [Except.ok.injEq] at hst
            subst hst
            have hq1 := @List.find?_some TeamSeason
              (fun u => decide (u.team_id = a.team_id)) t s.teams ht
            have hstep1 := find?_update_first_self
              (fun u => decide (u.team_id = a.team_id))
              (fun u : TeamSeason => { u with icon_player_id := some a.icon_player_id, current_players := 1 })
              s.teams t ht hq1
            have hstep2 := find?_update_first_self
              (fun u => decide (u.team_id = a.team_id))
              (fun u : TeamSeason => { u with remaining_budget := u.remaining_budget - 0, current_players := u.current_players + 1 })
              _ _ hstep1 hq1
            rw [hstep2]
            norm_num

/-- C10 witness: assigning icon player 7 to team 3 (previously holding a
counter of 4) leaves the team with exactly 2 current players and its
budget untouched. -/
theorem icon_assignment_headcount_witness :
    ({ icon_sample_state with
        teams := [⟨3, some 7, 1000, 1000, 5, 2, true⟩],
        purchases := [⟨3, 7, 0, true⟩] } : SeasonState).teams.find?
      (fun u => decide (u.team_id = (⟨3, 7⟩ : TeamWithIconPlayer).team_id)) =
      some { (⟨3, none, 1000, 1000, 5, 4, true⟩ : TeamSeason) with
        icon_player_id := some (⟨3, 7⟩ : TeamWithIconPlayer).icon_player_id,
        remaining_budget := (⟨3, none, 1000, 1000, 5, 4, true⟩ : TeamSeason).remaining_budget,
        current_players := 2 } := by
  exact icon_assignment_headcount icon_sample_state
    { icon_sample_state with
      teams := [⟨3, some 7, 1000, 1000, 5, 2, true⟩],
      purchases := [⟨3, 7, 0, true⟩] }
    ⟨3, 7⟩ ⟨3, none, 1000, 1000, 5, 4, true⟩
    (by
      norm_num [assign_icon_players, assign_icon_loop, assign_icon_step,
        create_player_purchase, update_first, icon_sample_state]
      rw [if_neg (by simp)])
    (by simp [icon_sample_state])

/-! ## C8: SOLD and ICON_PLAYER are terminal -/

theorem players_frozen_refl (s : SeasonState) : players_frozen s s := by
  intro i p hp _
  exact hp

theorem create_player_purchase_ok_state {s s' : SeasonState} {tid pid : Nat}
    {pr : ℚ} {ic : Bool}
    (h : create_player_purchase s tid pid pr ic = .ok s') :
    s'.players = s.players ∧ s'.auction_started = s.auction_started := by
  unfold create_player_purchase at h
  split at h
  · exact Except.noConfusion h
  · rw [Except.ok.injEq] at h
    subst h
    exact ⟨rfl, rfl⟩

theorem bid_on_player_frozen {s s' : SeasonState} {b : PlayerBid}
    (h : bid_on_player s b = .ok s') :
    players_frozen s s' ∧ s'.auction_started = s.auction_started ∧
      s.auction_started = true := by
  unfold bid_on_player at h
  by_cases hs : s.auction_started = true
  · rw [if_neg (by rw [hs]; simp)] at h
    rcases hfp : s.players.find? (fun p =>
        decide (p.player_id = b.player_id ∧
          p.auction_status = AuctionStatus.pending)) with _ | ps
    · rw [hfp] at h
      exact Except.noConfusion h
    · rw [hfp] at h
      dsimp only at h
      by_cases hsold : b.is_sold = true
      · rw [if_pos hsold] at h
        by_cases hlow : b.bid_amount < s.base_price
        · rw [if_pos hlow] at h
          exact Except.noConfusion h
        · rw [if_neg hlow] at h
          rcases hft : s.teams.find? (fun t =>
              decide (t.team_id = b.team_id)) with _ | ts
          · rw [hft] at h
            exact Except.noConfusion h
          · rw [hft] at h
            dsimp only at h
            by_cases hcb : (validate_team_budget ts b.bid_amount s.base_price).can_bid = true
            · rw [if_pos hcb] at h
              rcases hcr : create_player_purchase s b.team_id b.player_id
                  b.bid_amount false with e | s1
              · rw [hcr] at h
                exact Except.noConfusion h
              · rw [hcr] at h
                dsimp only at h
                rw [Except.ok.injEq] at h
                subst h
                obtain ⟨hpl, hst⟩ := create_player_purchase_ok_state hcr
                refine ⟨?_, hst, hs⟩
                intro i p hp hterm
                show (update_first _ _ s1.players)[i]? = some p
                rw [hpl]
                apply getElem?_update_first_of_not _ _ _ _ _ hp
                rcases hterm with h1 | h1 <;> simp [h1]
            · rw [if_neg hcb] at h
              exact Except.noConfusion h
      · rw [if_neg hsold] at h
        rw [Except.ok.injEq] at h
        subst h
        refine ⟨?_, rfl, hs⟩
        intro i p hp hterm
        show (update_first _ _ s.players)[i]? = some p
        apply getElem?_update_first_of_not _ _ _ _ _ hp
        rcases hterm with h1 | h1 <;> simp [h1]
  · rw [if_pos hs] at h
    exact Except.noConfusion h

theorem fast_assign_step_frozen {s s1 : SeasonState} {a : FastAssignment}
    {applied : Bool}
    (h : fast_assign_step s a = .ok (s1, applied)) :
    players_frozen s s1 ∧ s1.auction_started = s.auction_started := by
  unfold fast_assign_step at h
  rcases hfp : s.players.find? (fun p =>
      decide (p.player_id = a.player_id ∧
        (p.auction_status = AuctionStatus.pending ∨
         p.auction_status = AuctionStatus.unsold))) with _ | p
  · rw [hfp] at h
    simp only [Except.ok.injEq, Prod.mk.injEq] at h
    obtain ⟨rfl, -⟩ := h
    exact ⟨players_frozen_refl s, rfl⟩
  · rw [hfp] at h
    dsimp only at h
    rcases hft : s.teams.find? (fun t => decide (t.team_id = a.team_id)) with _ | ts
    · rw [hft] at h
      simp only [Except.ok.injEq, Prod.mk.injEq] at h
      obtain ⟨rfl, -⟩ := h
      exact ⟨players_frozen_refl s, rfl⟩
    · rw [hft] at h
      dsimp only at h
      by_cases hcb : (validate_team_budget ts a.price s.base_price).can_bid = true
      · rw [if_pos hcb] at h
        rcases hcr : create_player_purchase s a.team_id a.player_id
            a.price false with e | smid
        · rw [hcr] at h
          exact Except.noConfusion h
        · rw [hcr] at h
          dsimp only at h
          simp only [Except.ok.injEq, Prod.mk.injEq] at h
          obtain ⟨rfl, -⟩ := h
          obtain ⟨hpl, hst⟩ := create_player_purchase_ok_state hcr
          refine ⟨?_, hst⟩
          intro i p hp hterm
          show (update_first _ _ smid.players)[i]? = some p
          rw [hpl]
          apply getElem?_update_first_of_not _ _ _ _ _ hp
          rcases hterm with h1 | h1 <;> simp [h1]
      · rw [if_neg hcb] at h
        simp only [Except.ok.injEq, Prod.mk.injEq] at h
        obtain ⟨rfl, -⟩ := h
        exact ⟨players_frozen_refl s, rfl⟩

theorem fast_assign_loop_frozen : ∀ (l : List FastAssignment) (s : SeasonState)
    (n : Nat) (s' : SeasonState) (n' : Nat),
    fast_assign_loop s n l = .ok (s', n') →
    players_frozen s s' ∧ s'.auction_started = s.auction_started := by
  intro l
  induction l with
  | nil =>
    intro s n s' n' h
    simp only [fast_assign_loop, Except.ok.injEq, Prod.mk.injEq] at h
    obtain ⟨rfl, -⟩ := h
    exact ⟨players_frozen_refl s, rfl⟩
  | cons a rest ih =>
    intro s n s' n' h
    rcases hst : fast_assign_step s a with e | ⟨s1, applied⟩
    · simp only [fast_assign_loop, hst] at h
      exact Except.noConfusion h
    · simp only [fast_assign_loop, hst] at h
      obtain ⟨hf1, hs1⟩ := fast_assign_step_frozen hst
      obtain ⟨hf2, hs2⟩ := ih s1 _ s' n' h
      refine ⟨?_, hs2.trans hs1⟩
      intro i p hp hterm
      exact hf2 i p (hf1 i p hp hterm) hterm

theorem assign_icon_step_state {s s1 : SeasonState} {a : TeamWithIconPlayer}
    (h : assign_icon_step s a = .ok s1) :
    s1.players = s.players ∧ s1.auction_started = s.auction_started := by
  unfold assign_icon_step at h
  rcases hft : s.teams.find? (fun t => decide (t.team_id = a.team_id)) with _ | t
  · rw [hft] at h
    exact Except.noConfusion h
  · rw [hft] at h
    dsimp only at h
    rcases hfp : s.players.find? (fun p =>
        decide (p.player_id = a.icon_player_id ∧
          p.is_selected_for_auction = true)) with _ | p
    · rw [hfp] at h
      exact Except.noConfusion h
    · rw [hfp] at h
      dsimp only at h
      split at h
      · exact Except.noConfusion h
      · obtain ⟨h1, h2⟩ := create_player_purchase_ok_state h
        exact ⟨h1, h2⟩

theorem assign_icon_loop_state : ∀ (l : List TeamWithIconPlayer)
    (s s' : SeasonState), assign_icon_loop s l = .ok s' →
    s'.players = s.players ∧ s'.auction_started = s.auction_started := by
  intro l
  induction l with
  | nil =>
    intro s s' h
    simp only [assign_icon_loop, Except.ok.injEq] at h
    subst h
    exact ⟨rfl, rfl⟩
  | cons a rest ih =>
    intro s s' h
    rcases hst : assign_icon_step s a with e | s1
    · simp only [assign_icon_loop, hst] at h
      exact Except.noConfusion h
    · simp only [assign_icon_loop, hst] at h
      obtain ⟨h1, h2⟩ := assign_icon_step_state hst
      obtain ⟨h3, h4⟩ := ih s1 s' h
      exact ⟨h3.trans h1, h4.trans h2⟩

theorem assign_icon_players_state {s s' : SeasonState} {l : List TeamWithIconPlayer}
    (h : assign_icon_players s l = .ok s') :
    s'.players = s.players ∧ s'.auction_started = s.auction_started := by
  unfold assign_icon_players at h
  split at h
  · exact Except.noConfusion h
  · exact assign_icon_loop_state l s s' h

theorem start_auction_ok_elim {s s' : SeasonState} {m : AuctionMode}
    (h : start_auction s m = .ok s') :
    s.auction_started = false ∧ s'.auction_started = true := by
  unfold start_auction at h
  by_cases hc : s.auction_configured = true
  · rw [if_neg (by rw [hc]; simp)] at h
    by_cases hs : s.auction_started = true
    · rw [if_pos hs] at h
      exact Except.noConfusion h
    · rw [if_neg hs] at h
      split at h
      · exact Except.noConfusion h
      · rw [Except.ok.injEq] at h
        subst h
        exact ⟨by simpa using hs, rfl⟩
  · rw [if_pos (by simpa using hc)] at h
    exact Except.noConfusion h

theorem start_next_round_frozen {s s' : SeasonState}
    (h : start_next_auction_round s = .ok s') :
    players_frozen s s' ∧ s'.auction_started = s.auction_started ∧
      s.auction_started = true := by
  unfold start_next_auction_round at h
  by_cases hs : s.auction_started = true
  · rw [if_neg (by rw [hs]; simp)] at h
    dsimp only at h
    split at h
    · exact Except.noConfusion h
    · rw [Except.ok.injEq] at h
      subst h
      refine ⟨?_, rfl, hs⟩
      intro i p hp hterm
      show (s.players.map _)[i]? = some p
      rw [List.getElem?_map, hp, Option.map_some']
      rcases hterm with h1 | h1 <;> simp [h1]
  · rw [if_pos hs] at h
    exact Except.noConfusion h

theorem fastOp_ok_elim {s s' : SeasonState} {l : List FastAssignment}
    (h : apply_op s (.fastOp l) = .ok s') :
    players_frozen s s' ∧ s'.auction_started = true ∧
      s.auction_started = true := by
  change (fast_assign_players s l).map (fun r => r.1) = .ok s' at h
  rcases hfa : fast_assign_players s l with e | ⟨st, n⟩
  · rw [hfa] at h
    exact Except.noConfusion h
  · rw [hfa] at h
    rw [show Except.map (fun r : SeasonState × Nat => r.1) (Except.ok (st, n)) =
      Except.ok st from rfl, Except.ok.injEq] at h
    subst h
    unfold fast_assign_players at hfa
    by_cases hs : s.auction_started = true
    · rw [if_neg (by rw [hs]; simp)] at hfa
      obtain ⟨hf, hst⟩ := fast_assign_loop_frozen l s 0 st n hfa
      exact ⟨hf, hst.trans hs, hs⟩
    · rw [if_pos hs] at hfa
      exact Except.noConfusion hfa

/-- Before the auction starts, every reachable state still has all its
`PlayerSeason` rows at the registration default `PENDING`: only
`start_auction` flips `auction_started` (one-way), every status-mutating
operation requires the auction started, and icon assignment touches no
player status. -/
theorem reachable_not_started_pending {s : SeasonState} (hr : Reachable s) :
    s.auction_started = false →
    ∀ p ∈ s.players, p.auction_status = AuctionStatus.pending := by
  induction hr with
  | init s h0 h1 =>
    intro _
    exact h1
  | step s s' op hs h ih =>
    intro hns p hp
    cases op with
    | startOp m =>
      obtain ⟨-, hstarted⟩ := start_auction_ok_elim h
      rw [hstarted] at hns
      exact absurd hns (by simp)
    | bidOp b =>
      obtain ⟨-, hseq, hstrue⟩ := bid_on_player_frozen h
      have h2 : s'.auction_started = true := by rw [hseq, hstrue]
      rw [h2] at hns
      exact absurd hns (by simp)
    | fastOp l =>
      obtain ⟨-, h2, -⟩ := fastOp_ok_elim h
      rw [h2] at hns
      exact absurd hns (by simp)
    | nextRoundOp =>
      obtain ⟨-, hseq, hstrue⟩ := start_next_round_frozen h
      have h2 : s'.auction_started = true := by rw [hseq, hstrue]
      rw [h2] at hns
      exact absurd hns (by simp)
    | iconOp l =>
      obtain ⟨hpl, hst⟩ := assign_icon_players_state h
      rw [hst] at hns
      rw [hpl] at hp
      exact ih hns p hp

/-- C8: in every reachable season state, a `PlayerSeason` row whose status
is `SOLD` or `ICON_PLAYER` is left exactly in place, status included, by
every engine operation that succeeds: bid resolution targets only `PENDING`
rows, fast-assign only `PENDING`/`UNSOLD` rows, round advance only `UNSOLD`
rows, `start_auction` can only run from a pre-start state where no row is
`SOLD` or `ICON_PLAYER`, and icon assignment never touches player rows. -/
theorem sold_icon_terminal (s s' : SeasonState) (op : AuctionOp) (i : Nat)
    (p : PlayerSeason)
    (hr : Reachable s) (hop : apply_op s op = .ok s')
    (hp : s.players[i]? = some p)
    (hterm : p.auction_status = AuctionStatus.sold ∨
      p.auction_status = AuctionStatus.icon_player) :
    s'.players[i]? = some p := by
  cases op with
  | startOp m =>
    obtain ⟨hns, -⟩ := start_auction_ok_elim hop
    have hpend := reachable_not_started_pending hr hns p (List.getElem?_mem hp)
    rcases hterm with h1 | h1 <;> rw [hpend] at h1 <;> exact AuctionStatus.noConfusion h1
  | bidOp b => exact (bid_on_player_frozen hop).1 i p hp hterm
  | fastOp l => exact (fastOp_ok_elim hop).1 i p hp hterm
  | nextRoundOp => exact (start_next_round_frozen hop).1 i p hp hterm
  | iconOp l =>
    obtain ⟨hpl, -⟩ := assign_icon_players_state hop
    rw [hpl]
    exact hp

/-- C8 witness: along the concrete run start → sell → empty fast-assign,
the sold row of the reachable state `reach_state2` stays in place. -/
theorem sold_icon_terminal_witness :
    reach_state2.players[0]? = some ⟨1, true, .sold, 1⟩ := by
  have hr0 : Reachable reach_state0 := Reachable.init reach_state0 rfl (by
    intro p hp
    simp only [reach_state0, List.mem_singleton] at hp
    rw [hp])
  have h01 : apply_op reach_state0 (.startOp .random) = .ok reach_state1 := by
    norm_num [apply_op, start_auction, reach_state0, reach_state1]
  have hr1 : Reachable reach_state1 := Reachable.step _ _ _ hr0 h01
  have h12 : apply_op reach_state1 (.bidOp ⟨1, 1, 100, true⟩) = .ok reach_state2 := by
    norm_num [apply_op, bid_on_player, create_player_purchase, update_first,
      validate_team_budget, reach_state1, reach_state0, reach_state2]
  have hr2 : Reachable reach_state2 := Reachable.step _ _ _ hr1 h12
  have h22 : apply_op reach_state2 (.fastOp []) = .ok reach_state2 := by
    norm_num [apply_op, fast_assign_players, fast_assign_loop, Except.map,
      reach_state2, reach_state0]
  exact sold_icon_terminal reach_state2 reach_state2 (.fastOp []) 0
    ⟨1, true, .sold, 1⟩ hr2 h22 (by simp [reach_state2, reach_state0]) (Or.inl rfl)

end CricketAuction
